import Mathlib

/- Verification development for the mactop-report repository: a shallow
embedding of its metrics ingestion / statistical analysis pipeline
(`mactop_monitor.py` and `src/mactop_report/analyze.py`), together with
theorems settling the specification claims.

Modelling conventions:
* Python floats are modelled as exact rationals (ℚ).  Where the source uses
  the float literals 0.75 / 0.95 inside an index computation, the exact
  rational is used; for the data sizes this program targets the double
  rounding never changes the resulting index, so this is faithful.
* Timestamps are modelled as rational "seconds" once parsed; `timedelta`
  arithmetic becomes rational arithmetic.
* Python dicts keyed by strings are modelled as association lists with
  insert-or-overwrite update (`dictSet`).
-/

namespace MactopReport

/-! ## Small Python-builtin helpers -/

/-- Python's `min(values)` for a non-empty list (the `[]` case is never used by
the embedded code paths, which guard emptiness first). -/
def pyMin : List ℚ → ℚ
  | [] => 0
  | x :: xs => xs.foldl min x

/-- Python's `max(values)` for a non-empty list. -/
def pyMax : List ℚ → ℚ
  | [] => 0
  | x :: xs => xs.foldl max x

lemma foldl_min_le_init (l : List ℚ) (a : ℚ) : l.foldl min a ≤ a := by
  induction l generalizing a with
  | nil => simp
  | cons b t ih => exact le_trans (ih (min a b)) (min_le_left a b)

lemma foldl_min_le_mem (l : List ℚ) (a x : ℚ) (hx : x ∈ l) : l.foldl min a ≤ x := by
  induction l generalizing a with
  | nil => cases hx
  | cons b t ih =>
    rcases List.mem_cons.mp hx with h | h
    · subst h
      exact le_trans (foldl_min_le_init t (min a x)) (min_le_right a x)
    · exact ih (min a b) h

lemma pyMin_le_mem (l : List ℚ) (x : ℚ) (hx : x ∈ l) : pyMin l ≤ x := by
  cases l with
  | nil => cases hx
  | cons b t =>
    rcases List.mem_cons.mp hx with h | h
    · subst h; exact foldl_min_le_init t x
    · exact foldl_min_le_mem t b x h

lemma init_le_foldl_max (l : List ℚ) (a : ℚ) : a ≤ l.foldl max a := by
  induction l generalizing a with
  | nil => simp
  | cons b t ih => exact le_trans (le_max_left a b) (ih (max a b))

lemma mem_le_foldl_max (l : List ℚ) (a x : ℚ) (hx : x ∈ l) : x ≤ l.foldl max a := by
  induction l generalizing a with
  | nil => cases hx
  | cons b t ih =>
    rcases List.mem_cons.mp hx with h | h
    · subst h
      exact le_trans (le_max_right a x) (init_le_foldl_max t (max a x))
    · exact ih (max a b) h

lemma mem_le_pyMax (l : List ℚ) (x : ℚ) (hx : x ∈ l) : x ≤ pyMax l := by
  cases l with
  | nil => cases hx
  | cons b t =>
    rcases List.mem_cons.mp hx with h | h
    · subst h; exact init_le_foldl_max t x
    · exact mem_le_foldl_max t b x h

/-! ## Character-level helpers shared by the exposition parser and `float()` -/

/-- Python's `\w` (word character), ASCII fragment: letters, digits, underscore. -/
def isWordChar (c : Char) : Bool := c.isAlphanum || c = '_'

/-- Python's `str.strip()` on a character list: drop whitespace from both ends. -/
def stripChars (l : List Char) : List Char :=
  ((l.dropWhile Char.isWhitespace).reverse.dropWhile Char.isWhitespace).reverse

/-- Value of a digit string, most significant first. -/
def digitsToNat (l : List Char) : ℕ :=
  l.foldl (fun a c => a * 10 + (c.toNat - '0'.toNat)) 0

/-- Python's `float(s)` restricted to the token shapes reachable in this
program (a sign, decimal digits with an optional point, an optional exponent):
`[+-]? ( D+ [. D*] | . D+ ) ( (e|E) [+-]? D+ )?`.  Returns `none` exactly when
`float()` would raise `ValueError` on such a token ("`.`", "`1e`", "`1.2.3`",
"`e5`", ...).  The special spellings `inf` / `nan` and overflow to infinity
are outside the reachable token set and are not modelled. -/
def floatParse (l : List Char) : Option ℚ :=
  let sgnSplit : ℚ × List Char :=
    match l with
    | '-' :: t => (-1, t)
    | '+' :: t => (1, t)
    | _ => (1, l)
  let sgn := sgnSplit.1
  let l1 := sgnSplit.2
  let ip := l1.takeWhile Char.isDigit
  let l2 := l1.drop ip.length
  let fpSplit : List Char × List Char × Bool :=
    match l2 with
    | '.' :: t => (t.takeWhile Char.isDigit, t.drop (t.takeWhile Char.isDigit).length, true)
    | _ => ([], l2, false)
  let fp := fpSplit.1
  let l3 := fpSplit.2.1
  if ip.isEmpty && fp.isEmpty then none
  else
    let mant : ℚ := sgn * ((digitsToNat ip : ℚ) + (digitsToNat fp : ℚ) / 10 ^ fp.length)
    match l3 with
    | [] => some mant
    | 'e' :: t =>
      let esSplit : ℤ × List Char :=
        match t with
        | '-' :: u => (-1, u)
        | '+' :: u => (1, u)
        | _ => (1, t)
      let ed := esSplit.2.takeWhile Char.isDigit
      if ed.isEmpty || !(esSplit.2.drop ed.length).isEmpty then none
      else some (mant * 10 ^ (esSplit.1 * (digitsToNat ed : ℤ)))
    | 'E' :: t =>
      let esSplit : ℤ × List Char :=
        match t with
        | '-' :: u => (-1, u)
        | '+' :: u => (1, u)
        | _ => (1, t)
      let ed := esSplit.2.takeWhile Char.isDigit
      if ed.isEmpty || !(esSplit.2.drop ed.length).isEmpty then none
      else some (mant * 10 ^ (esSplit.1 * (digitsToNat ed : ℤ)))
    | _ => none

/-! ## Monitor-side Statistics Engine (`mactop_monitor.calculate_statistics`) -/

/-- The per-metric statistics dictionary built by
`mactop_monitor.calculate_statistics`.  The `std_dev` entry (a square root,
hence irrational in general) is modelled by the separate function `pyStdDev`
so that the record itself stays within ℚ. -/
structure MStats where
  min : ℚ
  max : ℚ
  mean : ℚ
  median : ℚ
  p75 : ℚ
  p95 : ℚ
  variance : ℚ
deriving DecidableEq, Repr

/-- Python `statistics.variance(values)` guarded by the source's
`if len(values) > 1 else 0`: sample variance with an `n − 1` denominator. -/
def pyVariance (values : List ℚ) : ℚ :=
  if values.length ≤ 1 then 0
  else
    let m := values.sum / (values.length : ℚ)
    (values.map (fun x => (x - m) ^ 2)).sum / ((values.length : ℚ) - 1)

/-- The all-zero statistics record returned for an empty value series. -/
def zeroMStats : MStats := ⟨0, 0, 0, 0, 0, 0, 0⟩

/-- Core of `mactop_monitor.calculate_statistics` once the value series has
been extracted: sort ascending, then
`min(values)`, `max(values)`, `sum(values)/n`,
`values[n//2]` (odd `n`) or the average of the two middle elements (even `n`),
`values[int(n*0.75)]`, `values[int(n*0.95)]`, and the sample variance.
`int(n*0.75)` and `int(n*0.95)` are the exact floors `3n/4` and `19n/20`
(the double rounding of `0.95` never changes the floor at realistic sizes). -/
def calculateStatisticsValues (values : List ℚ) : MStats :=
  if values.isEmpty then zeroMStats
  else
    let s := List.insertionSort (· ≤ ·) values
    let n := values.length
    { min := pyMin s
      max := pyMax s
      mean := s.sum / (n : ℚ)
      median := if n % 2 = 1 then s.getD (n / 2) 0
                else (s.getD (n / 2 - 1) 0 + s.getD (n / 2) 0) / 2
      p75 := s.getD (n * 3 / 4) 0
      p95 := s.getD (n * 19 / 20) 0
      variance := pyVariance s }

/-- The `std_dev` entry of the same dictionary:
`statistics.stdev(values) if len(values) > 1 else 0`, and `0.0` from the
empty-input literal. -/
noncomputable def pyStdDev (values : List ℚ) : ℝ :=
  if values.length ≤ 1 then 0 else Real.sqrt (pyVariance values)

/-- One CSV cell as produced by `read_csv_data`: either a parsed float or the
raw string (numeric strings were converted, everything else kept). -/
inductive CellVal where
  | num (q : ℚ)
  | str (s : String)
deriving DecidableEq

/-- One CSV row: a dict from column name to cell value. -/
abbrev MRow := List (String × CellVal)

/-- The guard `row[metric] != ""` from the comprehension in
`calculate_statistics`. -/
def cellTruthyNonEmpty : CellVal → Bool
  | .num _ => true
  | .str s => s ≠ ""

/-- Python `float(cell)`: identity on floats, `float()` string parsing (which
ignores surrounding whitespace) on strings. -/
def cellFloat : CellVal → Option ℚ
  | .num q => some q
  | .str s => floatParse (stripChars s.toList)

/-- The comprehension
`[float(row[metric]) for row in data if metric in row and row[metric] != ""]`.
A cell that passes the guard but is not parseable as a float makes the whole
call raise `ValueError`, modelled with `Except`. -/
def extractValues (data : List MRow) (metric : String) : Except String (List ℚ) :=
  match data with
  | [] => .ok []
  | row :: rest =>
    match row.lookup metric with
    | none => extractValues rest metric
    | some cv =>
      if cellTruthyNonEmpty cv then
        match cellFloat cv with
        | none => .error "ValueError: could not convert string to float"
        | some q => (extractValues rest metric).map (fun t => q :: t)
      else extractValues rest metric

/-- `mactop_monitor.calculate_statistics(data, metric)` in full: extract the
value series for the metric, then compute the statistics record. -/
def mactopCalculateStatistics (data : List MRow) (metric : String) :
    Except String MStats :=
  (extractValues data metric).map calculateStatisticsValues

/-! ## Analyze-side Statistics Engine (`analyze.calculate_statistics`, polars)

Polars columns carry nulls, modelled as `Option ℚ`; aggregations drop nulls
and return null on an empty (or all-null) column.  `Series.quantile` is called
without an interpolation argument, so polars' default `nearest` interpolation
applies: index `round((n − 1) · q)` into the ascending sort of the non-null
values, with Rust's round-half-away-from-zero. -/

/-- Rust `f64::round` for the non-negative arguments that arise here:
round half away from zero. -/
def ratRound (x : ℚ) : ℤ := ⌊x + 1 / 2⌋

/-- The non-null values of a column, sorted ascending. -/
def sortedNonNull (col : List (Option ℚ)) : List ℚ :=
  List.insertionSort (· ≤ ·) (col.filterMap id)

/-- Polars `Series.quantile(q)` with the default `nearest` interpolation. -/
def polarsQuantileNearest (col : List (Option ℚ)) (q : ℚ) : Option ℚ :=
  let v := sortedNonNull col
  if v.isEmpty then none
  else some (v.getD (ratRound ((v.length - 1 : ℚ) * q)).toNat 0)

/-- Polars `Series.min()`: null on an empty / all-null column. -/
def polarsMin (col : List (Option ℚ)) : Option ℚ :=
  match col.filterMap id with
  | [] => none
  | x :: xs => some (xs.foldl min x)

/-- Polars `Series.max()`. -/
def polarsMax (col : List (Option ℚ)) : Option ℚ :=
  match col.filterMap id with
  | [] => none
  | x :: xs => some (xs.foldl max x)

/-- Polars `Series.mean()`. -/
def polarsMean (col : List (Option ℚ)) : Option ℚ :=
  let l := col.filterMap id
  if l.isEmpty then none else some (l.sum / (l.length : ℚ))

/-- Polars `Series.median()` (linear interpolation at `q = 0.5`): the middle
element for odd `n`, the average of the two middle elements for even `n`. -/
def polarsMedian (col : List (Option ℚ)) : Option ℚ :=
  let v := sortedNonNull col
  if v.isEmpty then none
  else some (if v.length % 2 = 1 then v.getD (v.length / 2) 0
             else (v.getD (v.length / 2 - 1) 0 + v.getD (v.length / 2) 0) / 2)

/-- The per-metric statistics dictionary built by `analyze.calculate_statistics`.
The `std` entry (an irrational square root) is not modelled; no claim
depends on it. -/
structure PStats where
  min : Option ℚ
  max : Option ℚ
  mean : Option ℚ
  median : Option ℚ
  p50 : Option ℚ
  p75 : Option ℚ
  p95 : Option ℚ
deriving DecidableEq, Repr

/-- All statistics of one column. -/
def polarsColStats (col : List (Option ℚ)) : PStats :=
  { min := polarsMin col
    max := polarsMax col
    mean := polarsMean col
    median := polarsMedian col
    p50 := polarsQuantileNearest col (1 / 2)
    p75 := polarsQuantileNearest col (3 / 4)
    p95 := polarsQuantileNearest col (19 / 20) }

/-- `analyze.calculate_statistics(df, metrics)`: iterate over the requested
metrics in order; a metric whose column is absent from the frame is skipped
(with a warning), not given a zero or null record. -/
def analyzeCalculateStatistics (cols : List (String × List (Option ℚ)))
    (metrics : List String) : List (String × PStats) :=
  metrics.foldl (fun acc m =>
    match cols.lookup m with
    | none => acc
    | some col => acc ++ [(m, polarsColStats col)]) []

/-! ## Exposition-Format Parser (`mactop_monitor.parse_metrics`)

The line pattern is
`^(?P<metric_name>\w+)(?:\{(?P<labels>[^}]+)\})?\s+(?P<value>[-+]?[\d\.eE]+)$`.
Because `\w`, `\s`, `{` and the value character class are pairwise disjoint,
the regex is deterministic and is embedded as a direct scanner. -/

/-- A Python dict from field name to float, as an insert-or-overwrite
association list. -/
abbrev Dict := List (String × ℚ)

/-- Python dict assignment `d[k] = v`: overwrite in place, else append. -/
def dictSet (d : Dict) (k : String) (v : ℚ) : Dict :=
  match d with
  | [] => [(k, v)]
  | (k0, v0) :: t => if k0 = k then (k, v) :: t else (k0, v0) :: dictSet t k v

/-- Character class of the regex value group, `[\d\.eE]`. -/
def isValueChar (c : Char) : Bool := c.isDigit || c = '.' || c = 'e' || c = 'E'

/-- The regex value group `[-+]?[\d\.eE]+`, anchored to the end of the line. -/
def valueTokenOk (l : List Char) : Bool :=
  let core : List Char :=
    match l with
    | '-' :: t => t
    | '+' :: t => t
    | _ => l
  !core.isEmpty && core.all isValueChar

/-- Shared tail of the regex after the name and optional label block:
`\s+` then the anchored value group. -/
def finishMatch (name : List Char) (labels : Option (List Char))
    (r : List Char) : Option (List Char × Option (List Char) × List Char) :=
  let ws := r.takeWhile Char.isWhitespace
  if ws.isEmpty then none
  else
    let v := r.drop ws.length
    if valueTokenOk v then some (name, labels, v) else none

/-- `METRIC_PATTERN.match(line)`: returns the `metric_name`, optional `labels`
and `value` groups. -/
def matchMetricLine (line : List Char) :
    Option (List Char × Option (List Char) × List Char) :=
  let name := line.takeWhile isWordChar
  if name.isEmpty then none
  else
    match line.drop name.length with
    | '{' :: t =>
      let labels := t.takeWhile (fun c => c ≠ '}')
      if labels.isEmpty then none
      else
        match t.drop labels.length with
        | '}' :: r => finishMatch name (some labels) r
        | _ => none
    | r => finishMatch name none r

/-- Python `"a,b".split(',')` on a character list. -/
def splitOnChar (sep : Char) : List Char → List (List Char)
  | [] => [[]]
  | c :: t =>
    if c = sep then [] :: splitOnChar sep t
    else
      match splitOnChar sep t with
      | [] => [[c]]
      | h :: r => (c :: h) :: r

/-- Python `part.split('=', 1)` guarded by `'=' in part`. -/
def splitFirstEq : List Char → Option (List Char × List Char)
  | [] => none
  | c :: t =>
    if c = '=' then some ([], t)
    else (splitFirstEq t).map (fun p => (c :: p.1, p.2))

/-- Python `s.strip('"')`: drop all leading and trailing quote characters. -/
def stripQuotes (l : List Char) : List Char :=
  ((l.dropWhile (fun c => c = '"')).reverse.dropWhile (fun c => c = '"')).reverse

/-- Body of the label loop in `parse_metrics`: one `key="value"` part,
dispatched through the fixed (metric-name, label-key, label-value) table. -/
def applyLabelPart (name : List Char) (v : ℚ) (res : Dict) (part : List Char) :
    Dict :=
  match splitFirstEq part with
  | none => res
  | some p =>
    let key := stripChars p.1
    let lval := stripQuotes (stripChars p.2)
    if name = "mactop_memory_gb".toList ∧ key = "type".toList then
      if lval = "swap_total".toList then dictSet res "memory_swap_total" v
      else if lval = "swap_used".toList then dictSet res "memory_swap_used" v
      else if lval = "total".toList then dictSet res "memory_total" v
      else if lval = "used".toList then dictSet res "memory_used" v
      else res
    else if name = "mactop_power_watts".toList ∧ key = "component".toList then
      if lval = "cpu".toList then dictSet res "power_cpu" v
      else if lval = "gpu".toList then dictSet res "power_gpu" v
      else if lval = "total".toList then dictSet res "power_total" v
      else res
    else res

/-- The data-line branch of `parse_metrics` once the value has parsed:
unlabeled lines go through the rename table (or keep their raw name),
labeled lines run the label loop. -/
def processDataLine (res : Dict) (name : List Char)
    (labelsOpt : Option (List Char)) (v : ℚ) : Dict :=
  match labelsOpt with
  | none =>
    if name = "mactop_cpu_usage_percent".toList then
      dictSet res "cpu_usage_percent" v
    else if name = "mactop_gpu_freq_mhz".toList then
      dictSet res "gpu_freq_mhz" v
    else if name = "mactop_gpu_usage_percent".toList then
      dictSet res "gpu_usage_percent" v
    else dictSet res (String.mk name) v
  | some labels => (splitOnChar ',' labels).foldl (applyLabelPart name v) res

/-- One iteration of the line loop in `parse_metrics`: strip, skip blank and
comment lines, match the pattern, parse the float (a `ValueError` skips the
line), then update the dict. -/
def processLine (res : Dict) (rawLine : String) : Dict :=
  let line := stripChars rawLine.toList
  if line.isEmpty then res
  else if line.head? = some '#' then res
  else
    match matchMetricLine line with
    | none => res
    | some g =>
      match floatParse g.2.2 with
      | none => res
      | some v => processDataLine res g.1 g.2.1 v

/-- Fold of the line loop from a given starting dict (used to state that a
dropped line does not affect the parsing of subsequent lines). -/
def lineFold (res : Dict) (lines : List String) : Dict :=
  lines.foldl processLine res

/-- `mactop_monitor.parse_metrics(text)`: empty text short-circuits to the
empty dict; otherwise fold the line loop over the lines.  (Python splits with
`str.splitlines`; splitting on `'\n'` is equivalent here because the extra
empty fragments a trailing newline produces are blank lines, which are
skipped.) -/
def parseMetrics (text : String) : Dict :=
  if text.isEmpty then [] else lineFold [] (text.splitOn "\n")

/-! ## Derived-Metric Calculator (`analyze.calculate_derived_metrics`) -/

/-- The raw memory counters of one dataset row (non-null; the polars null
cases are not exercised by any claim). -/
structure DRow where
  memory_used : ℚ
  memory_total : ℚ
  memory_swap_used : ℚ
deriving DecidableEq, Repr

/-- A row after `with_columns`: the original row plus the two derived
percentage columns. -/
structure DerivedRow where
  base : DRow
  ram_percent : ℚ
  swap_pressure_percent : ℚ
deriving DecidableEq, Repr

/-- Row-wise effect of the two `pl.when(col("memory_total") > 0)` expressions:
the percentage formula when the guard holds, `0.0` otherwise. -/
def derivedRowOf (r : DRow) : DerivedRow :=
  { base := r
    ram_percent :=
      if 0 < r.memory_total then r.memory_used / r.memory_total * 100 else 0
    swap_pressure_percent :=
      if 0 < r.memory_total then r.memory_swap_used / r.memory_total * 100 else 0 }

/-- `analyze.calculate_derived_metrics(df)`: the input frame (cloned, so the
argument itself is untouched) extended with `ram_percent` and
`swap_pressure_percent`. -/
def calculateDerivedMetrics (df : List DRow) : List DerivedRow :=
  df.map derivedRowOf

/-! ## Sufficiency Scorer (`analyze.calculate_sufficiency_metrics`) -/

/-- Per-metric body of `calculate_sufficiency_metrics`: `0.0` when the
maximum is `0`, otherwise `(p95 − p75) / max`. -/
def calculateSufficiencyOf (p75 p95 maxVal : ℚ) : ℚ :=
  if maxVal = 0 then 0 else (p95 - p75) / maxVal

/-- The dict-level loop of `calculate_sufficiency_metrics` over statistics
records that do carry the `p75` / `p95` / `max` entries (the key-presence
check of the source is vacuous on this typed representation). -/
def calculateSufficiencyMetrics (stats : List (String × (ℚ × ℚ × ℚ))) :
    List (String × ℚ) :=
  stats.map (fun p => (p.1, calculateSufficiencyOf p.2.1 p.2.2.1 p.2.2.2))

/-! ## Peak-Window Finder (`mactop_monitor.find_peak_window`)

Rows carry a pre-parsed numeric timestamp `ts` (seconds), an optional metric
value `val` (`none` models both an absent key and an empty-string cell), and
the optional `timestamp_obj` entry that the source function itself writes
into each input row.  The `datetime.fromisoformat` failure branch is not
modelled: the claims quantify over series whose timestamps parse. -/

/-- One row as seen by `find_peak_window`. -/
structure PRow where
  ts : ℚ
  val : Option ℚ
  tsObj : Option ℚ
deriving DecidableEq, Repr

/-- The in-place `item["timestamp_obj"] = datetime.fromisoformat(...)`. -/
def setTsObj (r : PRow) : PRow := { r with tsObj := some r.ts }

/-- Inner loop of `find_peak_window` for the window starting at index `i`:
scan forward from `i`, stop at the first timestamp past
`window_start + duration`, and collect the present metric values. -/
def windowValsAt (d : List PRow) (dur : ℚ) (i : ℕ) : List ℚ :=
  match d.drop i with
  | [] => []
  | r :: _ =>
    ((d.drop i).takeWhile (fun x => decide (x.ts ≤ r.ts + dur))).filterMap PRow.val

/-- Average of the window starting at `i` (0 on an empty window via the ℚ
convention; only used under a non-emptiness guard). -/
def windowAvgAt (d : List PRow) (dur : ℚ) (i : ℕ) : ℚ :=
  let ws := windowValsAt d dur i
  ws.sum / (ws.length : ℚ)

/-- One iteration of the outer loop: skip empty windows, update the running
`(best_start_idx, highest_avg)` on a strictly larger average. -/
def peakStep (d : List PRow) (dur : ℚ) (acc : ℕ × ℚ) (i : ℕ) : ℕ × ℚ :=
  let ws := windowValsAt d dur i
  if ws.isEmpty then acc
  else
    let avg := ws.sum / (ws.length : ℚ)
    if acc.2 < avg then (i, avg) else acc

/-- `find_peak_window(data, metric, window_minutes)`.  The first component is
the data list *after* the call (the source mutates its argument by adding
`timestamp_obj` to every row once the length guard has passed); the second is
the returned `(start_index, average)` pair.  Note the early return for fewer
than two rows, and that the outer loop runs over `range(len(data) - 1)`. -/
def findPeakWindow (data : List PRow) (windowMinutes : ℕ) :
    List PRow × ℕ × ℚ :=
  if data.length < 2 then (data, 0, 0)
  else
    let d := data.map setTsObj
    let startT := pyMin (d.map PRow.ts)
    let endT := pyMax (d.map PRow.ts)
    if endT - startT < (windowMinutes : ℚ) * 60 then
      let vs := d.filterMap PRow.val
      (d, 0, if vs.isEmpty then 0 else vs.sum / (vs.length : ℚ))
    else
      (d, (List.range (d.length - 1)).foldl (peakStep d ((windowMinutes : ℚ) * 60)) (0, 0))

/-- The Peak-Window Finder as the claim words it (a second definition, written
from the claim, to compare with `findPeakWindow`): `(0, mean of the entire
series)` whenever the total span is shorter than the window duration — with
no length-2 guard — and otherwise the first strictly-highest window average
over *every* starting index. -/
def peakWindowClaimed (data : List PRow) (windowMinutes : ℕ) : ℕ × ℚ :=
  let dur := (windowMinutes : ℚ) * 60
  let tss := data.map PRow.ts
  if pyMax tss - pyMin tss < dur then
    let vs := data.filterMap PRow.val
    (0, if vs.isEmpty then 0 else vs.sum / (vs.length : ℚ))
  else
    (List.range data.length).foldl (peakStep data dur) (0, 0)

/-! ## Record Store / Loader (`analyze.load_data`) and analysis entry point

A batch is the parsed content of one CSV file; `none` stands for a file on
which `pl.scan_csv(...).collect()` raised (the per-file `except` that prints
and continues).  Timestamp strings are normalized *after* concatenation, with
the source's global three-stage fallback; the final fallback re-raises, which
`load_data` does not catch. -/

/-- A loaded CSV row: the raw timestamp string plus the numeric columns
(null for empty cells). -/
structure LRow where
  timestamp : String
  fields : List (String × Option ℚ)
deriving DecidableEq, Repr

/-- A row after timestamp normalization. -/
structure NRow where
  ts : ℚ
  fields : List (String × Option ℚ)
deriving DecidableEq, Repr

/-- Days since 1970-01-01 of a civil date (standard era-based formula; valid
for the CE years that occur in timestamps, where `y ≥ 1`). -/
def daysFromCivil (y m d : ℕ) : ℤ :=
  let y2 := if m ≤ 2 then y - 1 else y
  let era := y2 / 400
  let yoe := y2 % 400
  let mp := (m + 9) % 12
  let doy := (153 * mp + 2) / 5 + d - 1
  let doe := yoe * 365 + yoe / 4 - yoe / 100 + doy
  (era * 146097 + doe : ℤ) - 719468

/-- Two-digit groups and ranges of the timestamp formats. -/
def tsOfParts (y mo da h mi se : ℕ) : Option ℚ :=
  if 1 ≤ mo ∧ mo ≤ 12 ∧ 1 ≤ da ∧ da ≤ 31 ∧ h ≤ 23 ∧ mi ≤ 59 ∧ se ≤ 59 then
    some ((daysFromCivil y mo da : ℚ) * 86400 + ((h * 3600 + mi * 60 + se : ℕ) : ℚ))
  else none

/-- `strptime` with format `%Y-%m-%d %H:%M:%S` (seconds since the epoch).
Month lengths are approximated by `day ≤ 31`; no claim depends on the exact
calendar check. -/
def parseTs1 (str : String) : Option ℚ :=
  match str.toList with
  | [y1, y2, y3, y4, '-', m1, m2, '-', d1, d2, ' ', h1, h2, ':', i1, i2, ':', s1, s2] =>
    if [y1, y2, y3, y4, m1, m2, d1, d2, h1, h2, i1, i2, s1, s2].all Char.isDigit then
      tsOfParts (digitsToNat [y1, y2, y3, y4]) (digitsToNat [m1, m2])
        (digitsToNat [d1, d2]) (digitsToNat [h1, h2]) (digitsToNat [i1, i2])
        (digitsToNat [s1, s2])
    else none
  | _ => none

/-- `strptime` with format `%Y-%m-%dT%H:%M:%S.%f` (fractional seconds,
1–6 digits). -/
def parseTs2 (str : String) : Option ℚ :=
  let cs := str.toList
  match cs.take 19 with
  | [y1, y2, y3, y4, '-', m1, m2, '-', d1, d2, 'T', h1, h2, ':', i1, i2, ':', s1, s2] =>
    if [y1, y2, y3, y4, m1, m2, d1, d2, h1, h2, i1, i2, s1, s2].all Char.isDigit then
      match cs.drop 19 with
      | '.' :: ds =>
        if !ds.isEmpty && ds.length ≤ 6 && ds.all Char.isDigit then
          (tsOfParts (digitsToNat [y1, y2, y3, y4]) (digitsToNat [m1, m2])
            (digitsToNat [d1, d2]) (digitsToNat [h1, h2]) (digitsToNat [i1, i2])
            (digitsToNat [s1, s2])).map
            (fun base => base + (digitsToNat ds : ℚ) / 10 ^ ds.length)
        else none
      | _ => none
    else none
  | _ => none

/-- The fallback cleanup: `.str.replace("T", " ")` then
`.str.split(".", n=1).list.first()`. -/
def cleanupTs (s : String) : String :=
  String.mk ((s.toList.map (fun c => if c = 'T' then ' ' else c)).takeWhile
    (fun c => c ≠ '.'))

/-- The three-stage timestamp normalization of `load_data`: a polars
`strptime` raises if *any* entry fails its format, so each stage applies to
the whole combined frame or not at all; the last stage's failure escapes. -/
def normalizeTimestamps (rows : List LRow) : Except String (List NRow) :=
  if rows.all (fun r => (parseTs1 r.timestamp).isSome) then
    .ok (rows.map (fun r => ⟨(parseTs1 r.timestamp).getD 0, r.fields⟩))
  else if rows.all (fun r => (parseTs2 r.timestamp).isSome) then
    .ok (rows.map (fun r => ⟨(parseTs2 r.timestamp).getD 0, r.fields⟩))
  else
    let cleaned := rows.map (fun r => LRow.mk (cleanupTs r.timestamp) r.fields)
    if cleaned.all (fun r => (parseTs1 r.timestamp).isSome) then
      .ok (cleaned.map (fun r => ⟨(parseTs1 r.timestamp).getD 0, r.fields⟩))
    else .error "ComputeError: could not parse timestamps"

/-- The result of `pl.scan_csv(path).collect()` for one file: `none` when it
raised and the file was skipped. -/
abbrev RawBatch := Option (List LRow)

/-- `analyze.load_data(file_paths)`: raise on an empty path list, read each
file (skipping unreadable ones), raise if none was readable, concatenate in
order, then normalize timestamps. -/
def loadData (files : List RawBatch) : Except String (List NRow) :=
  if files.isEmpty then
    .error "No CSV files provided to load data from."
  else
    let dfs := files.filterMap id
    if dfs.isEmpty then
      .error "Could not load data from any of the provided CSV files."
    else normalizeTimestamps dfs.flatten

/-- One column of the loaded dataset. -/
def getColumn (rows : List NRow) (metric : String) : List (Option ℚ) :=
  rows.map (fun r => (r.fields.lookup metric).join)

/-! ### Heatmap Aggregator (`analyze.prepare_heatmap_data`)

`prepare_heatmap_data` builds `df_with_time = df.with_columns([...weekday...,
...hour...])` — a *new* frame, the input `df` is untouched — then groups it by
`(day_of_week, hour)` and averages the metric per bucket into a dict. -/

/-- Polars `dt.weekday()` on an epoch-seconds timestamp: 1 = Monday, ...,
7 = Sunday (1970-01-01 was a Thursday, weekday 4). -/
def tsWeekday (ts : ℚ) : ℤ := (⌊ts / 86400⌋ + 3) % 7 + 1

/-- Polars `dt.hour()` on an epoch-seconds timestamp. -/
def tsHour (ts : ℚ) : ℤ := ⌊ts⌋ % 86400 / 3600

/-- A row of `df_with_time`: the input row plus the two extracted columns. -/
structure HRow where
  base : NRow
  day_of_week : ℤ
  hour : ℤ
deriving DecidableEq, Repr

/-- The `with_columns` step of `prepare_heatmap_data`: a new frame whose rows
extend the input rows with `day_of_week` and `hour`. -/
def heatmapAugment (rows : List NRow) : List HRow :=
  rows.map (fun r => ⟨r, tsWeekday r.ts, tsHour r.ts⟩)

/-- Distinct group keys in order of first appearance. -/
def firstOccurrences : List (ℤ × ℤ) → List (ℤ × ℤ)
  | [] => []
  | k :: t => k :: (firstOccurrences t).filter (fun x => decide (x ≠ k))

/-- `analyze.prepare_heatmap_data(df, metric)`, in the same state-passing
style as `findPeakWindow`: the first component is the input dataset after
the call — unchanged, since `with_columns` and `group_by` build new frames —
and the second is the `(day_of_week, hour) ↦ mean` dict (bucket means drop
nulls; a bucket of only-null metric cells carries `none`, Python `None`).
The schema-membership guard of the source (absent `timestamp` or metric
column returns `{}`) is elided: `timestamp` is always present in this typed
representation and no claim depends on the metric-column check. -/
def prepareHeatmapData (rows : List NRow) (metric : String) :
    List NRow × List ((ℤ × ℤ) × Option ℚ) :=
  let dfWithTime := heatmapAugment rows
  (rows,
   (firstOccurrences (dfWithTime.map (fun r => (r.day_of_week, r.hour)))).map
     (fun k => (k, polarsMean ((dfWithTime.filter
        (fun r => decide ((r.day_of_week, r.hour) = k))).map
        (fun r => (r.base.fields.lookup metric).join)))))

/-- The statistics block `run_analysis` builds from the loaded frame (the
schema-membership check of `calculate_statistics` is elided at this call
site; no claim inspects it through `run_analysis`). -/
def analyzeStatsFromRows (rows : List NRow) (metrics : List String) :
    List (String × PStats) :=
  metrics.map (fun m => (m, polarsColStats (getColumn rows m)))

/-- The slice of the `run_analysis` result dictionary that the claims
inspect: the optional `"error"` entry, the statistics block, and the record
count.  The derived-metric augmentation, heatmaps, sufficiency block and
date-range summary are elided — no claim inspects them through
`run_analysis`, and they do not affect its error behaviour. -/
structure RunResult where
  error : Option String
  statistics : List (String × PStats)
  totalRecords : ℕ
deriving DecidableEq, Repr

/-- The structured early return of `run_analysis` when `find_csv_files`
matched nothing. -/
def noDataResult : RunResult :=
  ⟨some "No data files found for the specified date range.", [], 0⟩

/-- `analyze.run_analysis`, abstracted over the batches `find_csv_files`
found: the early structured-`error` return when no files matched, and the
*uncaught* `load_data` call — a `ValueError` raised there (zero readable
batches) propagates to the caller as an exception (`Except.error`). -/
def runAnalysis (files : List RawBatch) (targetMetrics : List String) :
    Except String RunResult :=
  if files.isEmpty then .ok noDataResult
  else
    (loadData files).map (fun rows =>
      { error := none
        statistics := analyzeStatsFromRows rows targetMetrics
        totalRecords := rows.length })

/-! ## Shared lemmas about sorted lists and the statistics record -/

lemma sorted_getD_mono (l : List ℚ) (hs : l.Sorted (· ≤ ·)) {i j : ℕ} (hij : i ≤ j)
    (hj : j < l.length) : l.getD i 0 ≤ l.getD j 0 := by
  have hi : i < l.length := lt_of_le_of_lt hij hj
  rw [List.getD_eq_getElem l 0 hi, List.getD_eq_getElem l 0 hj]
  have h := hs.rel_get_of_le (a := ⟨i, hi⟩) (b := ⟨j, hj⟩) (by simpa using hij)
  simpa [List.get_eq_getElem] using h

lemma getD_mem_self (l : List ℚ) {i : ℕ} (h : i < l.length) : l.getD i 0 ∈ l := by
  rw [List.getD_eq_getElem l 0 h]
  exact List.getElem_mem h

/-- Unfolding of `calculateStatisticsValues` on a non-empty series. -/
lemma calcStats_nonempty (values : List ℚ) (h : values.isEmpty = false) :
    calculateStatisticsValues values =
      { min := pyMin (List.insertionSort (· ≤ ·) values)
        max := pyMax (List.insertionSort (· ≤ ·) values)
        mean := (List.insertionSort (· ≤ ·) values).sum / (values.length : ℚ)
        median := if values.length % 2 = 1 then
            (List.insertionSort (· ≤ ·) values).getD (values.length / 2) 0
          else ((List.insertionSort (· ≤ ·) values).getD (values.length / 2 - 1) 0 +
                (List.insertionSort (· ≤ ·) values).getD (values.length / 2) 0) / 2
        p75 := (List.insertionSort (· ≤ ·) values).getD (values.length * 3 / 4) 0
        p95 := (List.insertionSort (· ≤ ·) values).getD (values.length * 19 / 20) 0
        variance := pyVariance (List.insertionSort (· ≤ ·) values) } := by
  simp [calculateStatisticsValues, h]

/-! ## Claims C1 and C2: the percentile rank formula and its monotonicity -/

/-- C1, counterexample.  The claim asserts that "the Statistics Engine"
computes percentiles at index `floor(n · k)` of the ascending sort for every
non-empty series, and cites both engines.  The analyze-side engine
(`analyze.calculate_statistics`, polars `quantile` with default `nearest`
interpolation, index `round((n − 1) · k)`) disagrees with that formula
already at the four-element series `[10, 20, 30, 40]`: it returns `p75 = 30`,
while the claimed rank formula selects index `floor(4 · 0.75) = 3`,
i.e. `40`. -/
theorem c1_counterexample_polars_p75 :
    (polarsColStats [some 10, some 20, some 30, some 40]).p75 = some 30 ∧
    (List.insertionSort (· ≤ ·) ([10, 20, 30, 40] : List ℚ)).getD (4 * 3 / 4) 0 = 40 ∧
    (polarsColStats [some 10, some 20, some 30, some 40]).p75 ≠
      some ((List.insertionSort (· ≤ ·) ([10, 20, 30, 40] : List ℚ)).getD (4 * 3 / 4) 0) := by
  have hA : (polarsColStats [some 10, some 20, some 30, some 40]).p75 = some 30 := by
    norm_num [polarsColStats, polarsQuantileNearest, sortedNonNull, ratRound,
      List.insertionSort, List.orderedInsert]
    decide
  have hB : (List.insertionSort (· ≤ ·) ([10, 20, 30, 40] : List ℚ)).getD (4 * 3 / 4) 0 = 40 := by
    decide
  refine ⟨hA, hB, ?_⟩
  rw [hA, hB]
  decide

/-- C1, amended.  The monitor-side Statistics Engine
(`mactop_monitor.calculate_statistics`) does compute percentiles by the
nearest-rank formula: for every non-empty value series, `p75` and `p95` are
the elements at 0-indexed positions `floor(n · 0.75)` and `floor(n · 0.95)`
of the ascending sort (stated against an arbitrary sorted permutation `l` of
the series), the median is the middle element for odd `n` and the average of
the two middle elements for even `n`, and on `[10, 20, 30, 40, 50]` the
record is exactly `min 10, max 50, mean 30, median 30, p75 40, p95 50`.
The analyze-side engine agrees at that five-element example (its nearest
interpolation also selects 40 / 50 / 30 there) but not in general. -/
theorem c1_rank_formula_amended (values l : List ℚ) (h : values ≠ [])
    (hp : l.Perm values) (hs : l.Sorted (· ≤ ·)) :
    (calculateStatisticsValues values).p75 = l.getD (values.length * 3 / 4) 0 ∧
    (calculateStatisticsValues values).p95 = l.getD (values.length * 19 / 20) 0 ∧
    (calculateStatisticsValues values).median =
      (if values.length % 2 = 1 then l.getD (values.length / 2) 0
       else (l.getD (values.length / 2 - 1) 0 + l.getD (values.length / 2) 0) / 2) ∧
    calculateStatisticsValues [10, 20, 30, 40, 50] =
      { min := 10, max := 50, mean := 30, median := 30, p75 := 40, p95 := 50,
        variance := 250 } ∧
    (polarsColStats [some 10, some 20, some 30, some 40, some 50]).p75 = some 40 ∧
    (polarsColStats [some 10, some 20, some 30, some 40, some 50]).p95 = some 50 ∧
    (polarsColStats [some 10, some 20, some 30, some 40, some 50]).median = some 30 := by
  have hl : l = List.insertionSort (· ≤ ·) values :=
    List.eq_of_perm_of_sorted (hp.trans (List.perm_insertionSort (· ≤ ·) values).symm)
      hs (List.sorted_insertionSort (· ≤ ·) values)
  have hne : values.isEmpty = false := by simpa [List.isEmpty_iff] using h
  subst hl
  rw [calcStats_nonempty values hne]
  refine ⟨rfl, rfl, rfl, ?_, ?_, ?_, ?_⟩
  · norm_num [calculateStatisticsValues, List.insertionSort, List.orderedInsert,
      pyMin, pyMax, pyVariance, zeroMStats]
  · norm_num [polarsColStats, polarsQuantileNearest, sortedNonNull, ratRound,
      List.insertionSort, List.orderedInsert]
    decide
  · norm_num [polarsColStats, polarsQuantileNearest, sortedNonNull, ratRound,
      List.insertionSort, List.orderedInsert]
    decide
  · norm_num [polarsColStats, polarsMedian, sortedNonNull,
      List.insertionSort, List.orderedInsert]

/-- Witness for `c1_rank_formula_amended` at the series `[10, 20, 30, 40, 50]`
(which is its own ascending sort). -/
theorem c1_rank_formula_witness :
    ([10, 20, 30, 40, 50] : List ℚ) ≠ [] ∧
    (calculateStatisticsValues [10, 20, 30, 40, 50]).p75 = 40 := by
  refine ⟨by decide, ?_⟩
  have h := (c1_rank_formula_amended [10, 20, 30, 40, 50] [10, 20, 30, 40, 50]
    (by decide) (List.Perm.refl _) (by decide)).1
  rw [h]
  decide

/-- C2: for every non-empty value series, the statistics record computed by
the (monitor-side) Statistics Engine satisfies
`min ≤ median ≤ p75 ≤ p95 ≤ max`. -/
theorem c2_percentile_monotonic (values : List ℚ) (h : values ≠ []) :
    (calculateStatisticsValues values).min ≤ (calculateStatisticsValues values).median ∧
    (calculateStatisticsValues values).median ≤ (calculateStatisticsValues values).p75 ∧
    (calculateStatisticsValues values).p75 ≤ (calculateStatisticsValues values).p95 ∧
    (calculateStatisticsValues values).p95 ≤ (calculateStatisticsValues values).max := by
  have hne : values.isEmpty = false := by simpa [List.isEmpty_iff] using h
  have hn : 1 ≤ values.length := List.length_pos.mpr h
  rw [calcStats_nonempty values hne]
  have hlen : (List.insertionSort (· ≤ ·) values).length = values.length :=
    List.length_insertionSort (· ≤ ·) values
  have hsort : (List.insertionSort (· ≤ ·) values).Sorted (· ≤ ·) :=
    List.sorted_insertionSort (· ≤ ·) values
  set s := List.insertionSort (· ≤ ·) values with hs_def
  set n := values.length with hn_def
  dsimp only
  refine ⟨?_, ?_, ?_, ?_⟩
  · by_cases hpar : n % 2 = 1
    · rw [if_pos hpar]
      exact pyMin_le_mem s _ (getD_mem_self s (by omega))
    · rw [if_neg hpar]
      have ha := pyMin_le_mem s _ (getD_mem_self s (i := n / 2 - 1) (by omega))
      have hb := pyMin_le_mem s _ (getD_mem_self s (i := n / 2) (by omega))
      linarith
  · by_cases hpar : n % 2 = 1
    · rw [if_pos hpar]
      exact sorted_getD_mono s hsort (by omega) (by omega)
    · rw [if_neg hpar]
      have hab : s.getD (n / 2 - 1) 0 ≤ s.getD (n / 2) 0 :=
        sorted_getD_mono s hsort (by omega) (by omega)
      have hb75 : s.getD (n / 2) 0 ≤ s.getD (n * 3 / 4) 0 :=
        sorted_getD_mono s hsort (by omega) (by omega)
      linarith
  · exact sorted_getD_mono s hsort (by omega) (by omega)
  · exact mem_le_pyMax s _ (getD_mem_self s (by omega))

/-- Witness for `c2_percentile_monotonic` at the series `[10, 20, 30, 40, 50]`. -/
theorem c2_percentile_monotonic_witness :
    ([10, 20, 30, 40, 50] : List ℚ) ≠ [] ∧
    ((calculateStatisticsValues [10, 20, 30, 40, 50]).min ≤
      (calculateStatisticsValues [10, 20, 30, 40, 50]).median ∧
    (calculateStatisticsValues [10, 20, 30, 40, 50]).median ≤
      (calculateStatisticsValues [10, 20, 30, 40, 50]).p75 ∧
    (calculateStatisticsValues [10, 20, 30, 40, 50]).p75 ≤
      (calculateStatisticsValues [10, 20, 30, 40, 50]).p95 ∧
    (calculateStatisticsValues [10, 20, 30, 40, 50]).p95 ≤
      (calculateStatisticsValues [10, 20, 30, 40, 50]).max) :=
  ⟨by decide, c2_percentile_monotonic [10, 20, 30, 40, 50] (by decide)⟩

/-! ## Claim C3: behaviour on an empty value series -/

/-- Auxiliary: the extraction comprehension yields the empty series whenever
every row either lacks the metric key or holds the empty string there. -/
lemma extractValues_all_missing (metric : String) :
    ∀ data : List MRow,
      (∀ row ∈ data, row.lookup metric = none ∨ row.lookup metric = some (.str "")) →
      extractValues data metric = .ok [] := by
  intro data
  induction data with
  | nil => intro _; rfl
  | cons row rest ih =>
    intro h
    have hrest : ∀ r ∈ rest, r.lookup metric = none ∨ r.lookup metric = some (.str "") :=
      fun r hr => h r (List.mem_cons_of_mem _ hr)
    rcases h row (List.mem_cons_self row rest) with h1 | h1
    · rw [extractValues, h1]
      exact ih hrest
    · rw [extractValues, h1]
      simpa [cellTruthyNonEmpty] using ih hrest

/-- C3, counterexample.  The claim covers both engines; the analyze-side
engine (`analyze.calculate_statistics`) does not return an all-zero record on
an empty series: every aggregation of an empty (or all-null) polars column is
null (`None`), not `0.0`, and a metric whose column is absent is skipped
entirely rather than reported as zeros. -/
theorem c3_counterexample_polars_empty :
    (polarsColStats ([] : List (Option ℚ))).min = none ∧
    (polarsColStats ([] : List (Option ℚ))).min ≠ some 0 ∧
    analyzeCalculateStatistics [] ["cpu_usage_percent"] = [] := by
  exact ⟨rfl, by decide, rfl⟩

/-- C3, amended.  The monitor-side Statistics Engine
(`mactop_monitor.calculate_statistics`) does satisfy the claim: when every
row of the data either lacks the metric column or holds the empty string
there (so the extracted series is empty), it returns the record with all of
min, max, mean, median, p75, p95 and variance equal to `0.0`, the `std_dev`
entry equal to `0.0`, and no exception is raised (the extraction is `.ok`).
The analyze-side engine instead returns null fields for an empty column and
omits absent columns. -/
theorem c3_empty_series_amended (data : List MRow) (metric : String)
    (h : ∀ row ∈ data, row.lookup metric = none ∨ row.lookup metric = some (.str "")) :
    mactopCalculateStatistics data metric = .ok zeroMStats ∧
    calculateStatisticsValues [] = zeroMStats ∧
    pyStdDev [] = 0 := by
  refine ⟨?_, rfl, ?_⟩
  · rw [mactopCalculateStatistics, extractValues_all_missing metric data h]
    rfl
  · simp [pyStdDev]

/-- Witness for `c3_empty_series_amended`: two rows, one with an
empty-string cell for the metric and one lacking the column. -/
theorem c3_empty_series_witness :
    (∀ row ∈ ([[("cpu_usage_percent", CellVal.str "")], []] : List MRow),
      row.lookup "cpu_usage_percent" = none ∨
      row.lookup "cpu_usage_percent" = some (.str "")) ∧
    mactopCalculateStatistics [[("cpu_usage_percent", CellVal.str "")], []]
      "cpu_usage_percent" = .ok zeroMStats :=
  ⟨by decide,
   (c3_empty_series_amended [[("cpu_usage_percent", CellVal.str "")], []]
     "cpu_usage_percent" (by decide)).1⟩

/-! ## Claim C5: the exposition-format parser -/

/-- Python dict assignment then lookup of the same key. -/
lemma lookup_dictSet (d : Dict) (k : String) (v : ℚ) :
    (dictSet d k v).lookup k = some v := by
  induction d with
  | nil => simp [dictSet, List.lookup]
  | cons p t ih =>
    obtain ⟨k0, v0⟩ := p
    by_cases hk : k0 = k
    · subst hk
      simp [dictSet, List.lookup]
    · have hbeq : (k == k0) = false := beq_eq_false_iff_ne.mpr (Ne.symm hk)
      simp [dictSet, if_neg hk, List.lookup, hbeq, ih]

/-- A line whose stripped text is empty cannot match the metric pattern. -/
lemma matchMetricLine_nil : matchMetricLine [] = none := rfl

/-- C5: the parser's line loop never throws (it is a total function into
dicts by construction), ignores blank and comment lines, drops a matched
line whose value token does not parse as a float without affecting the
parsing of subsequent lines, and maps the fixed label table to canonical
fields: a `mactop_memory_gb` line with `type="used"` sets `memory_used` to
the line's float value, and a `mactop_power_watts` line with
`component="cpu"` sets `power_cpu` — from any prior dict state `d`. -/
theorem c5_parser_behavior (d : Dict) (line : String) (rest : List String) :
    ((stripChars line.toList = [] ∨ (stripChars line.toList).head? = some '#') →
      lineFold d (line :: rest) = lineFold d rest) ∧
    (∀ g : List Char × Option (List Char) × List Char,
      matchMetricLine (stripChars line.toList) = some g →
      floatParse g.2.2 = none →
      lineFold d (line :: rest) = lineFold d rest) ∧
    List.lookup "memory_used"
      (processLine d "mactop_memory_gb\x7btype=\"used\"\x7d 8589934592") =
      some 8589934592 ∧
    List.lookup "power_cpu"
      (processLine d "mactop_power_watts\x7bcomponent=\"cpu\"\x7d 3.25") =
      some (13 / 4) := by
  refine ⟨?_, ?_, ?_, ?_⟩
  · intro hbc
    have hskip : processLine d line = d := by
      rcases hbc with h | h
      · have hdata : stripChars line.data = [] := h
        simp [processLine, hdata]
      · have hdata : (stripChars line.data).head? = some '#' := h
        by_cases he : (stripChars line.data).isEmpty
        · simp [processLine, he]
        · simp [processLine, he, hdata]
    show lineFold (processLine d line) rest = lineFold d rest
    rw [hskip]
  · intro g hm hf
    have hmdata : matchMetricLine (stripChars line.data) = some g := hm
    have h1 : (stripChars line.data).isEmpty = false := by
      rcases he : (stripChars line.data).isEmpty with _ | _
      · rfl
      · rw [List.isEmpty_iff.mp he, matchMetricLine_nil] at hmdata
        cases hmdata
    have h2 : ¬(stripChars line.data).head? = some '#' := by
      intro hh
      cases hl : stripChars line.data with
      | nil => rw [hl] at hh; cases hh
      | cons c t =>
        rw [hl] at hh
        have hc : c = '#' := by simpa using hh
        subst hc
        rw [hl] at hmdata
        have hw : isWordChar '#' = false := by decide
        simp [matchMetricLine, List.takeWhile_cons, hw] at hmdata
    have hskip : processLine d line = d := by
      simp [processLine, h1, h2, hmdata, hf]
    show lineFold (processLine d line) rest = lineFold d rest
    rw [hskip]
  · rw [show processLine d "mactop_memory_gb\x7btype=\"used\"\x7d 8589934592" =
      dictSet d "memory_used"
        (1 * ((digitsToNat ['8', '5', '8', '9', '9', '3', '4', '5', '9', '2'] : ℚ) +
          (digitsToNat [] : ℚ) / 10 ^ (0 : ℕ))) from rfl,
      show digitsToNat ['8', '5', '8', '9', '9', '3', '4', '5', '9', '2'] = 8589934592
        from by decide,
      show digitsToNat ([] : List Char) = 0 from by decide,
      lookup_dictSet]
    norm_num
  · rw [show processLine d "mactop_power_watts\x7bcomponent=\"cpu\"\x7d 3.25" =
      dictSet d "power_cpu"
        (1 * ((digitsToNat ['3'] : ℚ) + (digitsToNat ['2', '5'] : ℚ) / 10 ^ (2 : ℕ)))
      from rfl,
      show digitsToNat ['3'] = 3 from by decide,
      show digitsToNat ['2', '5'] = 25 from by decide,
      lookup_dictSet]
    norm_num

/-- Witness for `c5_parser_behavior`: a comment line is skipped, a matched
line with the non-numeric value token `1.2.3` is dropped without affecting
the following line, and the canonical mappings evaluate. -/
theorem c5_parser_behavior_witness :
    lineFold [("x", 1)] [" # note"] = lineFold [("x", 1)] [] ∧
    lineFold [] ["foo 1.2.3", "mactop_gpu_freq_mhz 5"] =
      lineFold [] ["mactop_gpu_freq_mhz 5"] := by
  constructor
  · exact (c5_parser_behavior [("x", 1)] " # note" []).1 (Or.inr (by decide))
  · exact (c5_parser_behavior [] "foo 1.2.3" ["mactop_gpu_freq_mhz 5"]).2.1
      ("foo".toList, none, "1.2.3".toList) (by decide) (by decide)


/-! ## Claim C6: derived metrics and the zero-denominator guard -/

/-- C6, counterexample.  The claim asserts
`ram_percent = memory_used / memory_total * 100` for *every* dataset row,
plus a zero-denominator guard.  The source guard is `memory_total > 0`, so a
row with a negative `memory_total` gets `ram_percent = 0`, not the formula
value: with `memory_used = 100, memory_total = -1` the formula gives
`-10000` while the code stores `0`. -/
theorem c6_counterexample_negative_total :
    (calculateDerivedMetrics [⟨100, -1, 0⟩]).map DerivedRow.ram_percent = [0] ∧
    (100 : ℚ) / (-1 : ℚ) * 100 = -10000 ∧
    ¬((calculateDerivedMetrics [⟨100, -1, 0⟩]).map DerivedRow.ram_percent =
      [(100 : ℚ) / (-1 : ℚ) * 100]) := by
  have h0 : (calculateDerivedMetrics [⟨100, -1, 0⟩]).map DerivedRow.ram_percent = [0] := by
    have hneg : ¬(0 : ℚ) < -1 := by norm_num
    simp [calculateDerivedMetrics, derivedRowOf, hneg]
  have h1 : (100 : ℚ) / (-1 : ℚ) * 100 = -10000 := by norm_num
  refine ⟨h0, h1, ?_⟩
  rw [h0, h1]
  intro hx
  have hhead : (0 : ℚ) = -10000 := by
    simpa using congrArg (fun l => l.headD (0 : ℚ)) hx
  norm_num at hhead

/-- C6, amended.  `calculate_derived_metrics` maps each row to the row
extended with the two derived columns; on a row with `memory_total > 0` they
equal `memory_used / memory_total * 100` and
`memory_swap_used / memory_total * 100`, and on a row with
`memory_total ≤ 0` (in particular `0`) both are `0.0` — never a division
error or a null (the guard is a total conditional expression).  On the
repository's own test row the values are `50.0` and `6.25`. -/
theorem c6_derived_metrics_amended (df : List DRow) (r : DRow) :
    calculateDerivedMetrics df = df.map derivedRowOf ∧
    (0 < r.memory_total →
      (derivedRowOf r).ram_percent = r.memory_used / r.memory_total * 100 ∧
      (derivedRowOf r).swap_pressure_percent =
        r.memory_swap_used / r.memory_total * 100) ∧
    (r.memory_total ≤ 0 →
      (derivedRowOf r).ram_percent = 0 ∧
      (derivedRowOf r).swap_pressure_percent = 0) ∧
    (derivedRowOf r).base = r ∧
    (derivedRowOf ⟨8589934592, 17179869184, 1073741824⟩).ram_percent = 50 ∧
    (derivedRowOf ⟨8589934592, 17179869184, 1073741824⟩).swap_pressure_percent =
      25 / 4 := by
  refine ⟨rfl, ?_, ?_, rfl, ?_, ?_⟩
  · intro hpos
    exact ⟨by simp [derivedRowOf, if_pos hpos], by simp [derivedRowOf, if_pos hpos]⟩
  · intro hle
    have hng : ¬0 < r.memory_total := not_lt.mpr hle
    exact ⟨by simp [derivedRowOf, if_neg hng], by simp [derivedRowOf, if_neg hng]⟩
  · have hpos : (0 : ℚ) < 17179869184 := by norm_num
    simp only [derivedRowOf, if_pos hpos]
    norm_num
  · have hpos : (0 : ℚ) < 17179869184 := by norm_num
    simp only [derivedRowOf, if_pos hpos]
    norm_num

/-- Witness for `c6_derived_metrics_amended` at a row with positive total. -/
theorem c6_derived_metrics_witness :
    (0 : ℚ) < (⟨2, 8, 4⟩ : DRow).memory_total ∧
    (derivedRowOf ⟨2, 8, 4⟩).ram_percent = (2 : ℚ) / 8 * 100 := by
  refine ⟨by norm_num, ?_⟩
  exact ((c6_derived_metrics_amended [] ⟨2, 8, 4⟩).2.1 (by norm_num)).1

/-! ## Claim C7: the sufficiency scorer -/

/-- C7: the Sufficiency Scorer is the pure function
`(p75, p95, max) ↦ (p95 − p75) / max` with result `0.0` when `max = 0`;
in particular `(75, 95, 100) ↦ 0.2` and `(50, 90, 100) ↦ 0.4`, both per
record and through the dict-level loop. -/
theorem c7_sufficiency (p75 p95 maxVal : ℚ) :
    (maxVal ≠ 0 → calculateSufficiencyOf p75 p95 maxVal = (p95 - p75) / maxVal) ∧
    (maxVal = 0 → calculateSufficiencyOf p75 p95 maxVal = 0) ∧
    calculateSufficiencyOf 75 95 100 = 1 / 5 ∧
    calculateSufficiencyOf 50 90 100 = 2 / 5 ∧
    calculateSufficiencyMetrics [("metric1", (75, 95, 100)), ("metric2", (50, 90, 100))] =
      [("metric1", 1 / 5), ("metric2", 2 / 5)] := by
  have hne : (100 : ℚ) ≠ 0 := by norm_num
  have h1 : calculateSufficiencyOf 75 95 100 = 1 / 5 := by
    rw [calculateSufficiencyOf, if_neg hne]
    norm_num
  have h2 : calculateSufficiencyOf 50 90 100 = 2 / 5 := by
    rw [calculateSufficiencyOf, if_neg hne]
    norm_num
  refine ⟨?_, ?_, h1, h2, ?_⟩
  · intro h
    rw [calculateSufficiencyOf, if_neg h]
  · intro h
    rw [calculateSufficiencyOf, if_pos h]
  · simp [calculateSufficiencyMetrics, h1, h2]

/-- Witness for `c7_sufficiency` at `p75 = 75, p95 = 95, max = 100`. -/
theorem c7_sufficiency_witness :
    (100 : ℚ) ≠ 0 ∧ calculateSufficiencyOf 75 95 100 = ((95 : ℚ) - 75) / 100 :=
  ⟨by norm_num, (c7_sufficiency 75 95 100).1 (by norm_num)⟩

/-! ## Claim C8: the "no data" conditions of the load and the entry point -/

/-- All-unreadable batches leave nothing after the per-file recovery. -/
lemma filterMap_id_all_none (files : List RawBatch) (h : files.all Option.isNone = true) :
    files.filterMap id = [] := by
  induction files with
  | nil => rfl
  | cons f t ih =>
    rcases f with _ | b
    · exact ih (by simpa using h)
    · simp at h

/-- C8, counterexample.  When at least one batch was supplied but none could
be read, `load_data` raises `ValueError` and `run_analysis` does not catch
it: the caller of the analysis entry point receives an exception, not a
structured `"error"` result. -/
theorem c8_counterexample_exception :
    runAnalysis [none] ["cpu_usage_percent"] =
      Except.error "Could not load data from any of the provided CSV files." ∧
    (runAnalysis [none] ["cpu_usage_percent"]).isOk = false :=
  ⟨rfl, rfl⟩

/-- C8, amended.  Both "no data" situations do fail with an explicit
condition, but they surface differently: with *zero batches supplied*
(`find_csv_files` matched nothing) `run_analysis` returns the structured
result whose `"error"` entry explains the failure, while with *zero readable
batches* `load_data` raises `ValueError` ("Could not load data ...") and the
exception propagates out of `run_analysis` to its caller (the CLI catches it
with a blanket handler).  `load_data` itself also raises on an empty path
list. -/
theorem c8_no_data_amended (files : List RawBatch) (tm : List String) :
    loadData [] = .error "No CSV files provided to load data from." ∧
    runAnalysis [] tm = .ok noDataResult ∧
    (files ≠ [] → files.all Option.isNone = true →
      loadData files = .error "Could not load data from any of the provided CSV files." ∧
      runAnalysis files tm =
        .error "Could not load data from any of the provided CSV files.") := by
  refine ⟨rfl, rfl, ?_⟩
  intro hne hall
  have hfe : files.isEmpty = false := by simpa [List.isEmpty_iff] using hne
  have hfm : files.filterMap id = [] := filterMap_id_all_none files hall
  have hload : loadData files =
      .error "Could not load data from any of the provided CSV files." := by
    rw [loadData.eq_def]
    simp [hfe, hfm]
  refine ⟨hload, ?_⟩
  rw [runAnalysis, if_neg (by simp [hfe]), hload]
  rfl

/-- Witness for `c8_no_data_amended` at the single unreadable batch `[none]`. -/
theorem c8_no_data_witness :
    (([none] : List RawBatch) ≠ [] ∧ ([none] : List RawBatch).all Option.isNone = true) ∧
    runAnalysis [none] [] =
      .error "Could not load data from any of the provided CSV files." :=
  ⟨⟨by decide, by decide⟩,
   ((c8_no_data_amended [none] []).2.2 (by decide) (by decide)).2⟩

/-! ## Claim C9: loading is invariant under splitting a batch at a row boundary -/

/-- C9: loading a record sequence as one combined batch and loading it as two
batches split at an arbitrary row boundary yield the identical concatenated
dataset — the loader concatenates, never merges or deduplicates — and hence
identical statistics records for every metric. -/
theorem c9_batch_split (rows : List LRow) (k : ℕ) :
    loadData [some rows] = loadData [some (rows.take k), some (rows.drop k)] ∧
    ∀ m : String,
      (loadData [some rows]).map
        (fun dataRows => polarsColStats (getColumn dataRows m)) =
      (loadData [some (rows.take k), some (rows.drop k)]).map
        (fun dataRows => polarsColStats (getColumn dataRows m)) := by
  have h : loadData [some rows] = loadData [some (rows.take k), some (rows.drop k)] := by
    rw [loadData.eq_def, loadData.eq_def]
    simp [List.take_append_drop]
  exact ⟨h, fun m => by rw [h]⟩


/-! ## Claim C4: the peak-window finder -/

/-- Setting `timestamp_obj` changes neither the timestamp nor the metric
value, so the window scan is unaffected by the in-place mutation. -/
lemma windowValsAt_map_setTsObj (data : List PRow) (dur : ℚ) (i : ℕ) :
    windowValsAt (data.map setTsObj) dur i = windowValsAt data dur i := by
  unfold windowValsAt
  rw [show (data.map setTsObj).drop i = (data.drop i).map setTsObj from
    (List.map_drop _ _ _).symm]
  cases data.drop i with
  | nil => rfl
  | cons r t =>
    simp only [List.map_cons]
    rw [show (setTsObj r :: List.map setTsObj t) = List.map setTsObj (r :: t) from rfl,
      List.takeWhile_map, List.filterMap_map]
    rfl

lemma peakStep_map_setTsObj (data : List PRow) (dur : ℚ) :
    peakStep (data.map setTsObj) dur = peakStep data dur := by
  funext acc i
  unfold peakStep
  rw [windowValsAt_map_setTsObj]

/-- Unfolding of one outer-loop iteration. -/
lemma peakStep_eq (d : List PRow) (dur : ℚ) (acc : ℕ × ℚ) (i : ℕ) :
    peakStep d dur acc i =
      if (windowValsAt d dur i).isEmpty then acc
      else if acc.2 < (windowValsAt d dur i).sum / ((windowValsAt d dur i).length : ℚ)
        then (i, (windowValsAt d dur i).sum / ((windowValsAt d dur i).length : ℚ))
        else acc := rfl

/-- Invariant of the outer loop of `find_peak_window` after the first `m`
starting indices: either no non-empty window so far had a positive average
and the accumulator is still `(0, 0)`, or the accumulator holds the first
index attaining the strictly largest positive window average seen so far. -/
lemma peakFold_invariant (d : List PRow) (dur : ℚ) :
    ∀ m : ℕ,
      ((List.range m).foldl (peakStep d dur) (0, 0) = ((0 : ℕ), (0 : ℚ)) ∧
        ∀ i, i < m → (windowValsAt d dur i).isEmpty = false →
          windowAvgAt d dur i ≤ 0) ∨
      (((List.range m).foldl (peakStep d dur) (0, 0)).1 < m ∧
        (windowValsAt d dur ((List.range m).foldl (peakStep d dur) (0, 0)).1).isEmpty
          = false ∧
        windowAvgAt d dur ((List.range m).foldl (peakStep d dur) (0, 0)).1 =
          ((List.range m).foldl (peakStep d dur) (0, 0)).2 ∧
        0 < ((List.range m).foldl (peakStep d dur) (0, 0)).2 ∧
        (∀ i, i < m → (windowValsAt d dur i).isEmpty = false →
          windowAvgAt d dur i ≤ ((List.range m).foldl (peakStep d dur) (0, 0)).2) ∧
        (∀ i, i < ((List.range m).foldl (peakStep d dur) (0, 0)).1 →
          (windowValsAt d dur i).isEmpty = false →
          windowAvgAt d dur i < ((List.range m).foldl (peakStep d dur) (0, 0)).2)) := by
  intro m
  induction m with
  | zero =>
    left
    exact ⟨rfl, fun i hi _ => absurd hi (Nat.not_lt_zero i)⟩
  | succ m ih =>
    rw [List.range_succ, List.foldl_append, List.foldl_cons, List.foldl_nil]
    have havg : windowAvgAt d dur m =
        (windowValsAt d dur m).sum / ((windowValsAt d dur m).length : ℚ) := rfl
    rw [peakStep_eq]
    cases hws : (windowValsAt d dur m).isEmpty with
    | true =>
      rw [if_pos rfl]
      rcases ih with ⟨hres, hall⟩ | ⟨h1, h2, h3, h4, h5, h6⟩
      · left
        refine ⟨hres, fun i hi hne => ?_⟩
        rcases Nat.lt_succ_iff_lt_or_eq.mp hi with hi2 | hi2
        · exact hall i hi2 hne
        · subst hi2
          rw [hws] at hne
          cases hne
      · right
        refine ⟨Nat.lt_succ_of_lt h1, h2, h3, h4, fun i hi hne => ?_, h6⟩
        rcases Nat.lt_succ_iff_lt_or_eq.mp hi with hi2 | hi2
        · exact h5 i hi2 hne
        · subst hi2
          rw [hws] at hne
          cases hne
    | false =>
      rw [if_neg Bool.false_ne_true]
      rcases ih with ⟨hres, hall⟩ | ⟨h1, h2, h3, h4, h5, h6⟩
      · rw [hres]
        by_cases hlt : ((0 : ℕ), (0 : ℚ)).2 <
            (windowValsAt d dur m).sum / ((windowValsAt d dur m).length : ℚ)
        · rw [if_pos hlt]
          have hpos : (0 : ℚ) <
              (windowValsAt d dur m).sum / ((windowValsAt d dur m).length : ℚ) := hlt
          right
          dsimp only
          refine ⟨Nat.lt_succ_self m, hws, havg, hpos, fun i hi hne => ?_,
            fun i hi hne => ?_⟩
          · rcases Nat.lt_succ_iff_lt_or_eq.mp hi with hi2 | hi2
            · exact le_of_lt (lt_of_le_of_lt (hall i hi2 hne) hpos)
            · subst hi2
              exact le_of_eq havg
          · exact lt_of_le_of_lt (hall i hi hne) hpos
        · rw [if_neg hlt]
          have hle : (windowValsAt d dur m).sum / ((windowValsAt d dur m).length : ℚ) ≤ 0 :=
            not_lt.mp hlt
          left
          refine ⟨rfl, fun i hi hne => ?_⟩
          rcases Nat.lt_succ_iff_lt_or_eq.mp hi with hi2 | hi2
          · exact hall i hi2 hne
          · subst hi2
            rw [havg]
            exact hle
      · by_cases hlt : ((List.range m).foldl (peakStep d dur) (0, 0)).2 <
            (windowValsAt d dur m).sum / ((windowValsAt d dur m).length : ℚ)
        · rw [if_pos hlt]
          right
          dsimp only
          refine ⟨Nat.lt_succ_self m, hws, havg, lt_trans h4 hlt, fun i hi hne => ?_,
            fun i hi hne => ?_⟩
          · rcases Nat.lt_succ_iff_lt_or_eq.mp hi with hi2 | hi2
            · exact le_of_lt (lt_of_le_of_lt (h5 i hi2 hne) hlt)
            · subst hi2
              exact le_of_eq havg
          · exact lt_of_le_of_lt (h5 i hi hne) hlt
        · rw [if_neg hlt]
          right
          refine ⟨Nat.lt_succ_of_lt h1, h2, h3, h4, fun i hi hne => ?_, h6⟩
          rcases Nat.lt_succ_iff_lt_or_eq.mp hi with hi2 | hi2
          · exact h5 i hi2 hne
          · subst hi2
            rw [havg]
            exact not_lt.mp hlt

/-- C4, counterexample.  Two divergences from the claim, each at an explicit
input.  (a) A one-element series spans less than the window, so the claim
prescribes `(0, mean) = (0, 5)`; the code's `len(data) < 2` early return
yields `(0, 0.0)`.  (b) On the two-element series with timestamps 0 s and
1200 s (span 20 min ≥ 15 min window), the claim's scan over *every* starting
index finds the window at index 1 with average 100; the code's loop
`range(len(data) - 1)` never starts a window at the last index and returns
`(0, 1.0)`. -/
theorem c4_counterexample_peak_window :
    peakWindowClaimed [⟨0, some 5, none⟩] 15 = (0, 5) ∧
    (findPeakWindow [⟨0, some 5, none⟩] 15).2 = (0, 0) ∧
    ((0 : ℕ), (5 : ℚ)) ≠ ((0 : ℕ), (0 : ℚ)) ∧
    peakWindowClaimed [⟨0, some 1, none⟩, ⟨1200, some 100, none⟩] 15 = (1, 100) ∧
    (findPeakWindow [⟨0, some 1, none⟩, ⟨1200, some 100, none⟩] 15).2 = (0, 1) := by
  refine ⟨?_, ?_, ?_, ?_, ?_⟩
  · norm_num [peakWindowClaimed, pyMin, pyMax, peakStep, windowValsAt]
    rw [if_neg (by simp),
      show List.filterMap PRow.val [(⟨0, some 5, none⟩ : PRow)] = [5] from rfl]
    norm_num
  · rw [findPeakWindow, if_pos (by norm_num)]
  · intro h
    have h5 : (5 : ℚ) = 0 := congrArg Prod.snd h
    norm_num at h5
  · norm_num [peakWindowClaimed, pyMin, pyMax, max_def, List.range_succ,
      peakStep, windowValsAt, windowAvgAt]
    rw [show List.filterMap PRow.val [(⟨0, some 1, none⟩ : PRow)] = [1] from rfl,
      show List.filterMap PRow.val [(⟨1200, some 100, none⟩ : PRow)] = [100] from rfl]
    norm_num
    simp only [if_neg (show ¬(some (1 : ℚ) = none) by simp),
      if_neg (show ¬(some (100 : ℚ) = none) by simp)]
    norm_num
  · rw [findPeakWindow, if_neg (by norm_num)]
    norm_num [pyMin, pyMax, max_def, setTsObj, List.range_succ,
      peakStep, windowValsAt, windowAvgAt]
    simp only [if_neg (show ¬(some (1 : ℚ) = none) by simp)]
    rw [show List.filterMap PRow.val [(⟨0, some 1, some 0⟩ : PRow)] = [1] from rfl]
    norm_num

/-- C4, amended.  `find_peak_window` behaves as the claim says except that
(a) a series of fewer than two rows returns `(0, 0.0)` unconditionally (even
though its span is shorter than the window), and (b) in the sliding branch
the window starting at the *last* index is never considered: the loop runs
over starting indices `0 .. n − 2`.  Precisely: for fewer than two rows the
result is `(0, 0)`; for `n ≥ 2` with span strictly below the window duration
the result is `(0, mean of the present values)` (`0.0` if none are present);
otherwise the result is `(0, 0.0)` when no non-empty window over indices
`0 .. n − 2` has positive average, and else the *first* index in `0 .. n − 2`
attaining the strictly largest (positive) window average, with that
average. -/
theorem c4_peak_window_amended (data : List PRow) (w : ℕ) :
    (data.length < 2 → (findPeakWindow data w).2 = (0, 0)) ∧
    (2 ≤ data.length →
      pyMax (data.map PRow.ts) - pyMin (data.map PRow.ts) < (w : ℚ) * 60 →
      (findPeakWindow data w).2 =
        (0, if (data.filterMap PRow.val).isEmpty then 0
            else (data.filterMap PRow.val).sum / ((data.filterMap PRow.val).length : ℚ))) ∧
    (2 ≤ data.length →
      ¬(pyMax (data.map PRow.ts) - pyMin (data.map PRow.ts) < (w : ℚ) * 60) →
      (((findPeakWindow data w).2 = ((0 : ℕ), (0 : ℚ)) ∧
        ∀ i, i < data.length - 1 →
          (windowValsAt data ((w : ℚ) * 60) i).isEmpty = false →
          windowAvgAt data ((w : ℚ) * 60) i ≤ 0) ∨
       ((findPeakWindow data w).2.1 < data.length - 1 ∧
        (windowValsAt data ((w : ℚ) * 60) (findPeakWindow data w).2.1).isEmpty = false ∧
        windowAvgAt data ((w : ℚ) * 60) (findPeakWindow data w).2.1 =
          (findPeakWindow data w).2.2 ∧
        0 < (findPeakWindow data w).2.2 ∧
        (∀ i, i < data.length - 1 →
          (windowValsAt data ((w : ℚ) * 60) i).isEmpty = false →
          windowAvgAt data ((w : ℚ) * 60) i ≤ (findPeakWindow data w).2.2) ∧
        (∀ i, i < (findPeakWindow data w).2.1 →
          (windowValsAt data ((w : ℚ) * 60) i).isEmpty = false →
          windowAvgAt data ((w : ℚ) * 60) i < (findPeakWindow data w).2.2)))) := by
  have hmap_ts : (data.map setTsObj).map PRow.ts = data.map PRow.ts := by
    rw [List.map_map]
    rfl
  have hmap_val : (data.map setTsObj).filterMap PRow.val = data.filterMap PRow.val := by
    rw [List.filterMap_map]
    rfl
  have hlen : (data.map setTsObj).length = data.length := List.length_map data setTsObj
  refine ⟨?_, ?_, ?_⟩
  · intro h
    rw [findPeakWindow, if_pos h]
  · intro h2 hspan
    rw [findPeakWindow, if_neg (Nat.not_lt.mpr h2)]
    simp only [hmap_ts, hmap_val]
    rw [if_pos hspan]
  · intro h2 hspan
    rw [findPeakWindow, if_neg (Nat.not_lt.mpr h2)]
    simp only [hmap_ts, hmap_val, hlen]
    rw [if_neg hspan, peakStep_map_setTsObj]
    exact peakFold_invariant data ((w : ℚ) * 60) (data.length - 1)

/-- Witness for `c4_peak_window_amended`: a two-row series spanning one
minute (less than the 15-minute window) degenerates to the whole-series
mean `(1 + 3) / 2 = 2`. -/
theorem c4_peak_window_witness :
    (2 ≤ ([⟨0, some 1, none⟩, ⟨60, some 3, none⟩] : List PRow).length ∧
      pyMax (([⟨0, some 1, none⟩, ⟨60, some 3, none⟩] : List PRow).map PRow.ts) -
        pyMin (([⟨0, some 1, none⟩, ⟨60, some 3, none⟩] : List PRow).map PRow.ts) <
        (15 : ℚ) * 60) ∧
    (findPeakWindow [⟨0, some 1, none⟩, ⟨60, some 3, none⟩] 15).2 = (0, 2) := by
  have hspan : pyMax (([⟨0, some 1, none⟩, ⟨60, some 3, none⟩] : List PRow).map PRow.ts) -
      pyMin (([⟨0, some 1, none⟩, ⟨60, some 3, none⟩] : List PRow).map PRow.ts) <
      (15 : ℚ) * 60 := by
    norm_num [pyMin, pyMax, max_def, min_def]
  refine ⟨⟨by decide, hspan⟩, ?_⟩
  have h := (c4_peak_window_amended [⟨0, some 1, none⟩, ⟨60, some 3, none⟩] 15).2.1
    (by decide) (by simpa using hspan)
  rw [h]
  norm_num [List.filterMap]

/-! ## Claim C10: analysis operations and their input datasets -/

/-- The dataset as left behind by `find_peak_window`: unchanged below two
rows (the early return fires before the mutation), otherwise every row has
been given a `timestamp_obj` entry in place. -/
lemma findPeakWindow_fst (data : List PRow) (w : ℕ) :
    (findPeakWindow data w).1 =
      if data.length < 2 then data else data.map setTsObj := by
  rw [findPeakWindow]
  by_cases h : data.length < 2
  · rw [if_pos h, if_pos h]
  · rw [if_neg h, if_neg h]
    dsimp only
    split <;> rfl

/-- C10, counterexample.  `find_peak_window` does *not* leave its input
dataset unchanged: on a two-row dataset it writes a `timestamp_obj` entry
into every input record (the in-place
`item["timestamp_obj"] = datetime.fromisoformat(...)`), so the records hold
an extra field after the call. -/
theorem c10_counterexample_mutation :
    (findPeakWindow [⟨0, some 1, none⟩, ⟨1200, some 100, none⟩] 15).1 ≠
      [⟨0, some 1, none⟩, ⟨1200, some 100, none⟩] := by
  rw [findPeakWindow_fst, if_neg (by decide)]
  decide

/-- C10, amended.  All analysis operations except `find_peak_window` leave
their input dataset unchanged: `calculate_derived_metrics` clones and only
extends (every output row still carries its input row unchanged), and
`prepare_heatmap_data` builds its `(day_of_week, hour)` columns in a *new*
frame — the dataset after the call is the dataset before it, and every row
of the augmented frame carries its input row unchanged — while
`calculate_statistics` sorts a freshly built value list and the sufficiency
scorer only reads its input (both embedded as pure functions, the source
having no in-place update on those paths).  The exception is
`find_peak_window`, which mutates its argument: with at least two rows it
adds a `timestamp_obj` entry to every input record (below two rows it
returns before mutating).  The mutation preserves the pre-existing
timestamp and metric fields of every record. -/
theorem c10_frame_amended (data : List PRow) (w : ℕ) (df : List DRow)
    (rows : List NRow) (metric : String) :
    (data.length < 2 → (findPeakWindow data w).1 = data) ∧
    (2 ≤ data.length → (findPeakWindow data w).1 = data.map setTsObj) ∧
    (∀ r : PRow, (setTsObj r).ts = r.ts ∧ (setTsObj r).val = r.val) ∧
    (calculateDerivedMetrics df).map DerivedRow.base = df ∧
    (prepareHeatmapData rows metric).1 = rows ∧
    (heatmapAugment rows).map HRow.base = rows := by
  refine ⟨?_, ?_, fun r => ⟨rfl, rfl⟩, ?_, rfl, ?_⟩
  · intro h
    rw [findPeakWindow_fst, if_pos h]
  · intro h
    rw [findPeakWindow_fst, if_neg (Nat.not_lt.mpr h)]
  · rw [calculateDerivedMetrics, List.map_map,
      show (DerivedRow.base ∘ derivedRowOf) = id from rfl, List.map_id]
  · rw [heatmapAugment, List.map_map,
      show (HRow.base ∘ fun r => HRow.mk r (tsWeekday r.ts) (tsHour r.ts)) = id from rfl,
      List.map_id]

/-- Witness for `c10_frame_amended` at a two-row dataset, a one-row
derived-metrics frame and a one-row heatmap input. -/
theorem c10_frame_witness :
    2 ≤ ([⟨0, some 1, none⟩, ⟨1200, some 100, none⟩] : List PRow).length ∧
    (findPeakWindow [⟨0, some 1, none⟩, ⟨1200, some 100, none⟩] 15).1 =
      ([⟨0, some 1, none⟩, ⟨1200, some 100, none⟩] : List PRow).map setTsObj ∧
    (calculateDerivedMetrics [⟨1, 2, 3⟩]).map DerivedRow.base = [(⟨1, 2, 3⟩ : DRow)] ∧
    (prepareHeatmapData [⟨0, [("cpu_usage_percent", some 1)]⟩] "cpu_usage_percent").1 =
      [(⟨0, [("cpu_usage_percent", some 1)]⟩ : NRow)] := by
  have h := c10_frame_amended [⟨0, some 1, none⟩, ⟨1200, some 100, none⟩] 15 [⟨1, 2, 3⟩]
    [⟨0, [("cpu_usage_percent", some 1)]⟩] "cpu_usage_percent"
  exact ⟨by decide, h.2.1 (by decide), h.2.2.2.1, h.2.2.2.2.1⟩

end MactopReport

